import Mathlib

/-!
Shallow embedding of the HackTheBias sign-language learning app
(`src/src/Beginner.tsx`, `src/src/AICameraEvaluation.tsx`, and the camera
quiz page in `src/unnamed/part_006`), together with theorems settling the
frozen claims about quiz generation, scoring, progression, the drag-and-drop
matching engine and the camera hand-sign evaluation flow.

JavaScript numbers that only ever hold small exact values (scores, levels)
are modelled as `Nat`/`Int`; classifier confidences and score percentages are
modelled over `ℚ` (the comparisons in the source are order comparisons and
`Math.round`, which are exact on the values involved).  `Math.random()`
driven choices are modelled by an explicit stream of naturals: the source
computes `Math.floor(Math.random() * n)`, which ranges exactly over
`[0, n)`, so each draw is embedded as `stream i % n`.
-/

namespace HTB

open scoped List

/-! ### The Fisher–Yates shuffle of `Beginner.tsx` / `part_006`

```
const shuffle = <T,>(array: T[]): T[] => {
  const shuffled = [...array];
  for (let i = shuffled.length - 1; i > 0; i--) {
    const j = Math.floor(Math.random() * (i + 1));
    [shuffled[i], shuffled[j]] = [shuffled[j], shuffled[i]];
  }
  return shuffled;
};
```
-/

/-- One destructuring swap `[l[i], l[j]] = [l[j], l[i]]`: both cells are read
before either is written.  Out-of-range indices leave the list unchanged
(the source never produces them: `j ≤ i < length`). -/
def listSwap (l : List α) (i j : Nat) : List α :=
  match l[i]?, l[j]? with
  | some a, some b => (l.set i b).set j a
  | _, _ => l

/-- The run of one `shuffle` call: `array` is the caller's list, `shuffled`
the local copy `[...array]` that the loop mutates.  The loop never writes to
`array`. -/
structure ShuffleRun (α : Type _) where
  array : List α
  shuffled : List α

/-- The body of the `for` loop, iterating `i` from `len - 1` down to `1`;
the counter argument is the current value of `i`. -/
def shuffleLoop (rand : Nat → Nat) : Nat → ShuffleRun α → ShuffleRun α
  | 0, st => st
  | i + 1, st =>
      shuffleLoop rand i
        { st with shuffled := listSwap st.shuffled (i + 1) (rand (i + 1) % (i + 2)) }

/-- The whole `shuffle` call on `array`, as a state: copy, then loop. -/
def shuffleRun (rand : Nat → Nat) (array : List α) : ShuffleRun α :=
  shuffleLoop rand (array.length - 1) { array := array, shuffled := array }

/-- `shuffle(array)`: the returned (shuffled) copy. -/
def shuffle (rand : Nat → Nat) (array : List α) : List α :=
  (shuffleRun rand array).shuffled

theorem set_getElem?_self (l : List α) (i : Nat) (a : α) (h : l[i]? = some a) :
    l.set i a = l := by
  apply List.ext_getElem?
  intro n
  by_cases hn : n = i
  · subst hn
    have hlt : n < l.length := by
      rcases List.getElem?_eq_some.1 h with ⟨h', _⟩; exact h'
    rw [List.getElem?_set_self hlt, h]
  · rw [List.getElem?_set_ne (by omega)]

theorem listSwap_perm (l : List α) (i j : Nat) : listSwap l i j ~ l := by
  classical
  unfold listSwap
  split
  · next a b hi hj =>
    have hi' : i < l.length := by
      rcases List.getElem?_eq_some.1 hi with ⟨h, _⟩; exact h
    have hj' : j < l.length := by
      rcases List.getElem?_eq_some.1 hj with ⟨h, _⟩; exact h
    have hia : l[i] = a := by
      rcases List.getElem?_eq_some.1 hi with ⟨h, e⟩; exact e
    have hjb : l[j] = b := by
      rcases List.getElem?_eq_some.1 hj with ⟨h, e⟩; exact e
    by_cases hij : i = j
    · subst hij
      have hab : a = b := by rw [← hia, hjb]
      subst hab
      rw [List.set_set, set_getElem?_self l i a hi]
    · rw [List.perm_iff_count]
      intro x
      have hj'' : j < (l.set i b).length := by simpa using hj'
      rw [List.count_set _ _ _ _ hj'', List.count_set _ _ _ _ hi']
      have hgs : (l.set i b)[j] = l[j] := by
        rw [List.getElem_set, if_neg hij]
      rw [hgs, hia, hjb]
      have ca : a = x → 0 < l.count x := fun e =>
        List.count_pos_iff.2 (by rw [← e, ← hia]; exact List.getElem_mem hi')
      have cb : b = x → 0 < l.count x := fun e =>
        List.count_pos_iff.2 (by rw [← e, ← hjb]; exact List.getElem_mem hj')
      by_cases h1 : a = x <;> by_cases h2 : b = x
      · have := ca h1
        simp only [h1, h2, beq_self_eq_true, if_true]
        omega
      · have := ca h1
        have e2 : (b == x) = false := beq_eq_false_iff_ne.2 h2
        simp only [h1, e2, beq_self_eq_true, if_true, Bool.false_eq_true, if_false]
        omega
      · have := cb h2
        have e1 : (a == x) = false := beq_eq_false_iff_ne.2 h1
        simp only [h2, e1, beq_self_eq_true, if_true, Bool.false_eq_true, if_false]
        omega
      · have e1 : (a == x) = false := beq_eq_false_iff_ne.2 h1
        have e2 : (b == x) = false := beq_eq_false_iff_ne.2 h2
        simp only [e1, e2, Bool.false_eq_true, if_false]
        omega
  · exact List.Perm.refl l

theorem shuffleLoop_array (rand : Nat → Nat) (n : Nat) (st : ShuffleRun α) :
    (shuffleLoop rand n st).array = st.array := by
  induction n generalizing st with
  | zero => rfl
  | succ i ih => rw [shuffleLoop, ih]

theorem shuffleLoop_perm (rand : Nat → Nat) (n : Nat) (st : ShuffleRun α) :
    (shuffleLoop rand n st).shuffled ~ st.shuffled := by
  induction n generalizing st with
  | zero => exact List.Perm.refl _
  | succ i ih =>
      rw [shuffleLoop]
      exact (ih _).trans (listSwap_perm _ _ _)

theorem shuffle_perm (rand : Nat → Nat) (l : List α) : shuffle rand l ~ l :=
  shuffleLoop_perm rand _ _

theorem shuffle_length (rand : Nat → Nat) (l : List α) :
    (shuffle rand l).length = l.length :=
  (shuffle_perm rand l).length_eq

/-! ### Tiers, rounding, and the submit / progression logic of `Beginner.tsx` -/

/-- `type TierType = "beginner" | "intermediate" | "expert" | "pro"`. -/
inductive TierType
  | beginner
  | intermediate
  | expert
  | pro
deriving DecidableEq, Repr

/-- `const tierOrder = ["beginner", "intermediate", "expert", "pro"]`. -/
def tierOrder : List TierType :=
  [.beginner, .intermediate, .expert, .pro]

/-- JavaScript `Math.round`: half-way cases round toward positive infinity. -/
def jsRound (q : ℚ) : ℤ := ⌊q + 1 / 2⌋

/-- `Math.round((score / questions.length) * 100)` from `handleSubmitQuiz`
(and the identical camera-quiz score computation in `part_006`). -/
def submitPercentage (score total : Nat) : ℤ :=
  jsRound ((score : ℚ) / (total : ℚ) * 100)

/-- The tier chosen on completing level 5 (`handleSubmitQuiz`):
`currentTierIndex < tierOrder.length - 1 ? tierOrder[currentTierIndex + 1] : tierType`. -/
def nextTier (tierType : TierType) : TierType :=
  let currentTierIndex := tierOrder.indexOf tierType
  if currentTierIndex < tierOrder.length - 1 then
    tierOrder.getD (currentTierIndex + 1) tierType
  else tierType

/-- The progress update that `handleSubmitQuiz` sends (tier, level), if any:
guarded by `percentage === 100 && userId`, then split on `levelNumber === 5`. -/
def submitProgress (tierType : TierType) (levelNumber : Nat) (percentage : ℤ)
    (hasUserId : Bool) : Option (TierType × Nat) :=
  if percentage = 100 ∧ hasUserId = true then
    if levelNumber = 5 then some (nextTier tierType, 1)
    else some (tierType, levelNumber + 1)
  else none

/-- A request sent to the backend from a submit path. -/
inductive BackendRequest
  | saveScore (tier : TierType) (level : Nat) (score : ℤ)
  | updateProgress (tier : TierType) (level : Nat)
deriving DecidableEq, Repr

/-- Whether a backend request is a progress advancement. -/
def isProgressUpdate : BackendRequest → Bool
  | .updateProgress _ _ => true
  | _ => false

/-- The backend requests issued by `handleSubmitQuiz` (`Beginner.tsx`):
the score is always saved when a user id is present, and `update-progress`
is sent exactly when `percentage === 100 && userId`. -/
def handleSubmitQuizRequests (tierType : TierType) (levelNumber : Nat)
    (score total : Nat) (hasUserId : Bool) : List BackendRequest :=
  let percentage := submitPercentage score total
  (if hasUserId then [.saveScore tierType levelNumber percentage] else []) ++
    (match submitProgress tierType levelNumber percentage hasUserId with
     | some (t, l) => [.updateProgress t l]
     | none => [])

/-- The backend requests issued when the camera quiz page (`part_006`)
finishes its last question — reached both from `handleCheck` (last answer
passed) and from `handleSkip` (last question skipped).  `results` is the
accumulated `evaluationResults.map(r => r.correct)`; only `save-score` is
ever sent, there is no `update-progress` call anywhere on this page. -/
def cameraQuizFinishRequests (tierType : TierType) (levelNumber : Nat)
    (results : List Bool) (total : Nat) (hasUserId : Bool) : List BackendRequest :=
  let score := submitPercentage (results.count true) total
  if hasUserId then [.saveScore tierType levelNumber score] else []

/-! ### The camera hand-sign check (`part_006` and `AICameraEvaluation.tsx`) -/

/-- `AICameraEvaluation.tsx` props restrict the tier to `"pro" | "expert"`. -/
inductive CameraTier
  | pro
  | expert
deriving DecidableEq, Repr

/-- `AICameraEvaluation.tsx` lines 87–96:
`config = { pro: { confidenceThreshold: 0.7 }, expert: { confidenceThreshold: 0.85 } }`. -/
def aiCameraThreshold : CameraTier → ℚ
  | .pro => 7 / 10
  | .expert => 17 / 20

/-- `part_006` lines 67–72: `config = { pro: 0.7, expert: 0.7 }` and
`currentConfig = config[tierType] || config.pro` (the fallback also yields
the `pro` entry for any other query-string tier). -/
def cameraQuizThreshold (tierType : String) : ℚ :=
  match tierType with
  | "pro" => 7 / 10
  | "expert" => 7 / 10
  | _ => 7 / 10

/-- The pass condition of both `handleCheck` implementations:
`data.match && data.confidence >= currentConfig.confidenceThreshold`. -/
def checkPasses (matchFlag : Bool) (confidence threshold : ℚ) : Bool :=
  matchFlag && decide (threshold ≤ confidence)

/-! ### Questions and quiz state (`Beginner.tsx`) -/

/-- `type QuestionType = "matching" | "typing" | "true-false" | "word-spelling"`. -/
inductive QType
  | typing
  | matching
  | trueFalse
  | wordSpelling
deriving DecidableEq, Repr

/-- A JavaScript `string | number` value (the type of `correctAnswer` and of
recorded quiz answers).  Strict equality `===` never equates the two shapes. -/
inductive JSVal
  | str (s : String)
  | num (n : Int)
deriving DecidableEq, Repr

/-- `{ letter: string; sign: string }` of a matching question. -/
structure QPair where
  letter : String
  sign : String
deriving DecidableEq, Repr

/-- The `Question` record of `Beginner.tsx` (optional fields default to the
absent value). -/
structure Question where
  id : Nat
  type : QType
  question : String
  correctAnswer : JSVal
  pairs : List QPair := []
  imageSrc : Option String := none
  fallbackEmoji : Option String := none
  word : Option String := none
deriving DecidableEq, Repr

/-- JavaScript `String(v)` on a present `string | number` value. -/
def jsStringVal : JSVal → String
  | .str s => s
  | .num n => toString n

/-- JavaScript `String(v)` where `v` may be `undefined`
(e.g. `String(quizAnswers[idx])` for an unanswered typing question). -/
def jsString : Option JSVal → String
  | none => "undefined"
  | some v => jsStringVal v

/-- JavaScript `toUpperCase()`: uppercase each character. -/
def jsToUpper (s : String) : String :=
  String.mk (s.toList.map Char.toUpper)

/-- The `droppedIcons` key `` `${questionId}-${letter}` ``. -/
def dropKey (questionId : Nat) (letter : String) : String :=
  toString questionId ++ "-" ++ letter

/-- The per-question branch of `calculateScore` (`Beginner.tsx` 417–444):
`true` exactly when the question contributes to `correct`. -/
def questionCorrect (quizAnswers : Nat → Option JSVal)
    (droppedIcons : String → Option String)
    (wordSpellingAnswers : Nat → Option String) (idx : Nat) (q : Question) : Bool :=
  match q.type with
  | .matching =>
      if quizAnswers idx = some (.str "matched") then
        q.pairs.all fun p => droppedIcons (dropKey idx p.letter) = some p.sign
      else false
  | .trueFalse => quizAnswers idx = some q.correctAnswer
  | .wordSpelling =>
      let userAnswer := (wordSpellingAnswers idx).getD ""
      jsToUpper userAnswer = jsToUpper (jsStringVal q.correctAnswer)
  | .typing =>
      jsToUpper (jsString (quizAnswers idx)) = jsToUpper (jsStringVal q.correctAnswer)

/-- `calculateScore`: `questions.forEach((q, idx) => { ... correct++ })`. -/
def calculateScore (questions : List Question) (quizAnswers : Nat → Option JSVal)
    (droppedIcons : String → Option String)
    (wordSpellingAnswers : Nat → Option String) : Nat :=
  questions.enum.foldl
    (fun correct iq =>
      if questionCorrect quizAnswers droppedIcons wordSpellingAnswers iq.1 iq.2 then
        correct + 1
      else correct) 0

/-! ### The content generator (`Beginner.tsx` `getLevelData`) -/

/-- One entry of `allLettersData`. -/
structure LetterData where
  letter : String
  instruction : String
  emoji : String
deriving DecidableEq, Repr

/-- `allLettersData`: the 23 built-in letters A–W. -/
def allLettersData : List LetterData :=
  [⟨"A", "Make a fist with your thumb on the side", "✊"⟩,
   ⟨"B", "Hold your hand flat with fingers together, thumb across palm", "🖐️"⟩,
   ⟨"C", "Curve your hand to form a C shape", "🤌"⟩,
   ⟨"D", "Point your index finger up, other fingers touch thumb", "☝️"⟩,
   ⟨"E", "Curl all fingers down toward palm, thumb across them", "✊"⟩,
   ⟨"F", "Touch thumb and index finger, other fingers up", "👌"⟩,
   ⟨"G", "Point index and middle fingers up", "✌️"⟩,
   ⟨"H", "Index and middle finger together pointing up", "✌️"⟩,
   ⟨"I", "Pinky finger up", "🤘"⟩,
   ⟨"J", "Pinky draws J in air", "✍️"⟩,
   ⟨"K", "Index and middle finger up like V", "✌️"⟩,
   ⟨"L", "Index finger and thumb form L", "👌"⟩,
   ⟨"M", "Three fingers down, thumb tucked", "✊"⟩,
   ⟨"N", "Two fingers down, thumb tucked", "✊"⟩,
   ⟨"O", "Form a circle with thumb and index finger", "👌"⟩,
   ⟨"P", "Index finger points down, thumb touches middle finger", "👌"⟩,
   ⟨"Q", "Make a circle with thumb and index, point down", "👌"⟩,
   ⟨"R", "Index and middle finger cross", "✌️"⟩,
   ⟨"S", "Fist with thumb over fingers", "✊"⟩,
   ⟨"T", "Fist with thumb between index and middle", "✊"⟩,
   ⟨"U", "Index and middle finger together up", "✌️"⟩,
   ⟨"V", "Index and middle finger spread apart up", "✌️"⟩,
   ⟨"W", "Index, middle, and ring finger up, spread apart", "✌️"⟩]

/-- The result of `getImageSrc`. -/
structure ImageData where
  type : String
  src : String
deriving DecidableEq, Repr

/-- The `imageLetters` list inside `getImageSrc`. -/
def imageLetters : List String :=
  ["A", "B", "C", "D", "E", "F", "G", "H", "I", "J", "K", "L", "M", "N", "O",
   "P", "Q", "R", "S", "T", "U", "V", "W"]

/-- `getImageSrc(letter, fallbackEmoji)`. -/
def getImageSrc (letter fallbackEmoji : String) : ImageData :=
  if imageLetters.contains letter then ⟨"image", "/" ++ letter ++ ".png"⟩
  else ⟨"emoji", fallbackEmoji⟩

/-- One entry of `allWordOptions` inside `getLevelData`. -/
structure WordOption where
  word : String
  letters : List String
deriving DecidableEq, Repr

/-- The fixed word candidate list of `getLevelData`. -/
def allWordOptions : List WordOption :=
  [⟨"BAD", ["B", "A", "D"]⟩,
   ⟨"CAB", ["C", "A", "B"]⟩,
   ⟨"FED", ["F", "E", "D"]⟩,
   ⟨"ACE", ["A", "C", "E"]⟩,
   ⟨"BED", ["B", "E", "D"]⟩,
   ⟨"CAD", ["C", "A", "D"]⟩,
   ⟨"DAB", ["D", "A", "B"]⟩,
   ⟨"BEAD", ["B", "E", "A", "D"]⟩,
   ⟨"FACE", ["F", "A", "C", "E"]⟩,
   ⟨"FADE", ["F", "A", "D", "E"]⟩,
   ⟨"FEED", ["F", "E", "E", "D"]⟩,
   ⟨"CABE", ["C", "A", "B", "E"]⟩,
   ⟨"HELLO", ["H", "E", "L", "L", "O"]⟩,
   ⟨"BELLE", ["B", "E", "L", "L", "E"]⟩,
   ⟨"FACED", ["F", "A", "C", "E", "D"]⟩,
   ⟨"CAFED", ["C", "A", "F", "E", "D"]⟩,
   ⟨"BACHELOR", ["B", "A", "C", "H", "E", "L", "O", "R"]⟩,
   ⟨"CABLED", ["C", "A", "B", "L", "E", "D"]⟩,
   ⟨"FABLED", ["F", "A", "B", "L", "E", "D"]⟩]

/-- `const lettersPerLevel = 4` (same constant in `getIconBank`,
`getLevelData` and the camera quiz page). -/
def lettersPerLevel : Nat := 4

/-- The candidate words usable at a level:
`allWordOptions.filter(w => w.letters.every(l => availableLettersSet.has(l)))`
where `availableLettersSet = new Set(quizLetters.map(ql => ql.letter))`. -/
def wordOptionsFor (quizLetters : List LetterData) : List WordOption :=
  allWordOptions.filter fun w =>
    w.letters.all fun l => (quizLetters.map (·.letter)).contains l

/-- The word-selection loop
`for (let i = 0; i < numWordQuestions && wordOptions.length > 0; i++)`:
pick index `Math.floor(Math.random() * wordOptions.length)` (embedded as
`wordPick pickIdx % length`), then `splice` the pick out via `indexOf`. -/
def pickWords (wordPick : Nat → Nat) : Nat → Nat → List WordOption → List WordOption
  | 0, _, _ => []
  | _ + 1, _, [] => []
  | n + 1, pickIdx, o :: os =>
      let opts := o :: os
      let selectedWord := opts.getD (wordPick pickIdx % opts.length) ⟨"", []⟩
      selectedWord ::
        pickWords wordPick n (pickIdx + 1) (opts.eraseIdx (opts.indexOf selectedWord))

/-- The random draws one `getLevelData` call consumes, one stream per call
site in source order. -/
structure LevelRandom where
  typingShuffle : Nat → Nat
  pairShuffle : Nat → Nat
  wordPick : Nat → Nat
  questionShuffle : Nat → Nat

/-- The typing question pushed for the shuffled cumulative letter at
position `idx` (so `id = idx`, since typing questions are pushed first). -/
def mkTypingQuestion (idx : Nat) (ld : LetterData) : Question :=
  { id := idx
    type := .typing
    question := "What letter is this sign?"
    correctAnswer := .str ld.letter
    imageSrc :=
      if (getImageSrc ld.letter ld.emoji).type = "image" then
        some ("/" ++ ld.letter ++ ".png")
      else none
    fallbackEmoji := some ld.emoji }

/-- The typing questions pushed first: one per shuffled cumulative letter. -/
def typingQuestionsOf (shuffled : List LetterData) : List Question :=
  shuffled.enum.map fun iq => mkTypingQuestion iq.1 iq.2

/-- The single matching question pushed when at least 3 cumulative letters
exist: pairs are a fresh shuffle of the cumulative letters, cut to
`Math.min(4, quizLetters.length)`. -/
def matchingQuestionOf (pairShuffled : List LetterData) (quizLen idNum : Nat) :
    Question :=
  { id := idNum
    type := .matching
    question := "Match each letter to its sign"
    pairs := (pairShuffled.take (min 4 quizLen)).map
      fun ld => QPair.mk ld.letter (getImageSrc ld.letter ld.emoji).src
    correctAnswer := .str "matched" }

/-- The word-spelling questions pushed for the picked words, ids continuing
from `startId = questions.length` at push time. -/
def wordQuestionsOf (picked : List WordOption) (startId : Nat) : List Question :=
  picked.enum.map fun iw =>
    { id := startId + iw.1
      type := .wordSpelling
      question := "Spell the word \"" ++ jsToUpper iw.2.word ++ "\" using hand signs"
      correctAnswer := .str (jsToUpper iw.2.word)
      word := some (jsToUpper iw.2.word) }

/-- The question list built by `getLevelData` before the final shuffle:
typing questions for every shuffled cumulative letter, then the matching
question (if at least 3 cumulative letters), then the word-spelling picks
(if `level >= 2 && quizLetters.length >= 3`, with
`numWordQuestions = level >= 3 ? 2 : 1`). -/
def getLevelDataQuestions (rng : LevelRandom) (level : Nat) : List Question :=
  let quizLetters := allLettersData.take (level * lettersPerLevel)
  let typingQs := typingQuestionsOf (shuffle rng.typingShuffle quizLetters)
  let withMatching :=
    if 3 ≤ quizLetters.length then
      typingQs ++
        [matchingQuestionOf (shuffle rng.pairShuffle quizLetters)
          quizLetters.length typingQs.length]
    else typingQs
  if 2 ≤ level ∧ 3 ≤ quizLetters.length then
    withMatching ++
      wordQuestionsOf
        (pickWords rng.wordPick (if 3 ≤ level then 2 else 1) 0
          (wordOptionsFor quizLetters))
        withMatching.length
  else withMatching

/-- One lesson letter of `getLevelData`. -/
structure LessonLetter where
  letter : String
  instruction : String
  imageData : ImageData
deriving DecidableEq, Repr

/-- `getLevelData(level)`: the non-cumulative lesson slice and the shuffled
cumulative quiz question list. -/
def getLevelData (rng : LevelRandom) (level : Nat) :
    List LessonLetter × List Question :=
  let startIdx := (level - 1) * lettersPerLevel
  let levelLetters := (allLettersData.drop startIdx).take lettersPerLevel
  let letters := levelLetters.map fun ld =>
    LessonLetter.mk ld.letter ld.instruction (getImageSrc ld.letter ld.emoji)
  (letters, shuffle rng.questionShuffle (getLevelDataQuestions rng level))

/-! ### The camera quiz question sequence (`part_006`) -/

/-- `const allLetters = ["A", "B", "C", "D", "H", "L", "V", "Y", "W"]`
— the classifier-supported subset. -/
def allLetters : List String :=
  ["A", "B", "C", "D", "H", "L", "V", "Y", "W"]

/-- The camera quiz `questions` memo:
`shuffle([...allLetters.slice(0, levelNumber * lettersPerLevel)])`. -/
def cameraQuestions (rand : Nat → Nat) (levelNumber : Nat) : List String :=
  shuffle rand (allLetters.take (levelNumber * lettersPerLevel))

/-! ### The drag-and-drop matching engine (`Beginner.tsx` `handleDrop`) -/

/-- The part of the quiz state `handleDrop` reads and writes. -/
structure DragState where
  quizAnswers : Nat → Option JSVal
  droppedIcons : String → Option String

/-- The `allMatched` re-check of `handleDrop`: a pair fails when
`!dropped || dropped !== pair.sign`. -/
def allPairsMatched (q : Question) (questionId : Nat)
    (dropped : String → Option String) : Bool :=
  q.pairs.all fun p =>
    match dropped (dropKey questionId p.letter) with
    | none => false
    | some s => decide (s ≠ "") && decide (s = p.sign)

/-- `handleDrop(e, questionId, letter)` with `draggedIcon` the currently
dragged icon source (the body is guarded by `if (draggedIcon)`, so a falsy
icon changes nothing).  It records the drop, and — when the current question
is a matching one (generated matching questions always carry `pairs`) —
re-checks all pairs and sets the answer to `"matched"` if they all hold
their sign.  A failed re-check leaves `quizAnswers` untouched. -/
def handleDrop (questions : List Question) (currentIndex : Nat) (st : DragState)
    (questionId : Nat) (letter draggedIcon : String) : DragState :=
  if draggedIcon = "" then st
  else
    let newDropped : String → Option String := fun k =>
      if k = dropKey questionId letter then some draggedIcon else st.droppedIcons k
    match questions[currentIndex]? with
    | some currentQuestion =>
        if currentQuestion.type = .matching then
          if allPairsMatched currentQuestion questionId newDropped then
            { quizAnswers := fun i =>
                if i = questionId then some (.str "matched") else st.quizAnswers i
              droppedIcons := newDropped }
          else { st with droppedIcons := newDropped }
        else { st with droppedIcons := newDropped }
    | none => { st with droppedIcons := newDropped }

/-- A sequence of drops on the current question, in order (the component
invokes `handleDrop(e, currentIndex, pair.letter)`, so `questionId` is
always the current index). -/
def runDrops (questions : List Question) (currentIndex : Nat) (st : DragState)
    (drops : List (String × String)) : DragState :=
  drops.foldl (fun s d => handleDrop questions currentIndex s currentIndex d.1 d.2) st

/-! ### Structural lemmas about the content generator -/

theorem pickWords_length (wp : Nat → Nat) (n i : Nat) (opts : List WordOption) :
    (pickWords wp n i opts).length = min n opts.length := by
  induction n generalizing i opts with
  | zero => simp [pickWords]
  | succ n ih =>
      cases opts with
      | nil => simp [pickWords]
      | cons o os =>
          have hlen : 0 < (o :: os).length := by simp
          have hk : wp i % (o :: os).length < (o :: os).length := Nat.mod_lt _ hlen
          have hsel : (o :: os).getD (wp i % (o :: os).length) ⟨"", []⟩ ∈ o :: os := by
            rw [List.getD_eq_getElem?_getD, List.getElem?_eq_getElem hk]
            exact List.getElem_mem hk
          have hidx :
              (o :: os).indexOf ((o :: os).getD (wp i % (o :: os).length) ⟨"", []⟩)
                < (o :: os).length :=
            List.indexOf_lt_length.2 hsel
          simp only [pickWords]
          rw [List.length_cons, ih, List.length_eraseIdx_of_lt hidx]
          omega

theorem pickWords_subset (wp : Nat → Nat) (n i : Nat) (opts : List WordOption) :
    ∀ w ∈ pickWords wp n i opts, w ∈ opts := by
  induction n generalizing i opts with
  | zero => simp [pickWords]
  | succ n ih =>
      cases opts with
      | nil => simp [pickWords]
      | cons o os =>
          intro w hw
          have hlen : 0 < (o :: os).length := by simp
          have hk : wp i % (o :: os).length < (o :: os).length := Nat.mod_lt _ hlen
          have hsel : (o :: os).getD (wp i % (o :: os).length) ⟨"", []⟩ ∈ o :: os := by
            rw [List.getD_eq_getElem?_getD, List.getElem?_eq_getElem hk]
            exact List.getElem_mem hk
          simp only [pickWords] at hw
          rcases List.mem_cons.1 hw with h | h
          · exact h ▸ hsel
          · exact List.eraseIdx_subset _ _ (ih _ _ w h)

theorem typingQuestionsOf_filter_typing (s : List LetterData) :
    (typingQuestionsOf s).filter (fun q => decide (q.type = QType.typing))
      = typingQuestionsOf s := by
  rw [List.filter_eq_self]
  intro q hq
  rcases List.mem_map.1 hq with ⟨iq, -, rfl⟩
  simp [mkTypingQuestion]

theorem wordQuestionsOf_filter_typing (p : List WordOption) (startId : Nat) :
    (wordQuestionsOf p startId).filter (fun q => decide (q.type = QType.typing))
      = [] := by
  rw [List.filter_eq_nil_iff]
  intro q hq
  rcases List.mem_map.1 hq with ⟨iw, -, rfl⟩
  simp

/-- The typing questions of the pre-shuffle question list are exactly the
per-shuffled-letter ones. -/
theorem getLevelDataQuestions_filter_typing (rng : LevelRandom) (level : Nat) :
    (getLevelDataQuestions rng level).filter (fun q => decide (q.type = QType.typing))
      = typingQuestionsOf
          (shuffle rng.typingShuffle (allLettersData.take (level * lettersPerLevel))) := by
  have hm : ∀ (s : List LetterData) (a b : Nat),
      List.filter (fun q => decide (q.type = QType.typing)) [matchingQuestionOf s a b]
        = [] := by
    intro s a b
    simp [matchingQuestionOf]
  simp only [getLevelDataQuestions]
  by_cases h3 : 3 ≤ (List.take (level * lettersPerLevel) allLettersData).length
  · rw [if_pos h3]
    by_cases h2 : 2 ≤ level ∧ 3 ≤ (List.take (level * lettersPerLevel) allLettersData).length
    · rw [if_pos h2, List.filter_append, List.filter_append,
        typingQuestionsOf_filter_typing, wordQuestionsOf_filter_typing, hm]
      simp
    · rw [if_neg h2, List.filter_append, typingQuestionsOf_filter_typing, hm]
      simp
  · rw [if_neg h3]
    have h2 : ¬ (2 ≤ level ∧ 3 ≤ (List.take (level * lettersPerLevel) allLettersData).length) :=
      fun hc => h3 hc.2
    rw [if_neg h2]
    exact typingQuestionsOf_filter_typing _

/-- The number of word-spelling questions in the pre-shuffle list. -/
theorem getLevelDataQuestions_countP_word (rng : LevelRandom) (level : Nat) :
    (getLevelDataQuestions rng level).countP
        (fun q => decide (q.type = QType.wordSpelling))
      = if 2 ≤ level ∧ 3 ≤ (allLettersData.take (level * lettersPerLevel)).length then
          min (if 3 ≤ level then 2 else 1)
            (wordOptionsFor (allLettersData.take (level * lettersPerLevel))).length
        else 0 := by
  have htyp : ∀ s : List LetterData,
      (typingQuestionsOf s).countP (fun q => decide (q.type = QType.wordSpelling)) = 0 := by
    intro s
    rw [List.countP_eq_zero]
    intro q hq
    rcases List.mem_map.1 hq with ⟨iq, -, rfl⟩
    simp [mkTypingQuestion]
  have hword : ∀ (p : List WordOption) (startId : Nat),
      (wordQuestionsOf p startId).countP (fun q => decide (q.type = QType.wordSpelling))
        = p.length := by
    intro p startId
    unfold wordQuestionsOf
    rw [List.countP_map]
    have : ((fun q => decide (q.type = QType.wordSpelling)) ∘
        (fun iw : Nat × WordOption =>
          ({ id := startId + iw.1
             type := .wordSpelling
             question := "Spell the word \"" ++ jsToUpper iw.2.word ++ "\" using hand signs"
             correctAnswer := .str (jsToUpper iw.2.word)
             word := some (jsToUpper iw.2.word) } : Question))) = fun _ => true := by
      funext iw; rfl
    rw [this, List.countP_true, List.enum_length]
  have hmc : ∀ (s : List LetterData) (a b : Nat),
      List.countP (fun q => decide (q.type = QType.wordSpelling))
        [matchingQuestionOf s a b] = 0 := by
    intro s a b
    simp [matchingQuestionOf]
  simp only [getLevelDataQuestions]
  by_cases h3 : 3 ≤ (List.take (level * lettersPerLevel) allLettersData).length
  · rw [if_pos h3]
    by_cases h2 : 2 ≤ level ∧ 3 ≤ (List.take (level * lettersPerLevel) allLettersData).length
    · rw [if_pos h2, if_pos h2, List.countP_append, List.countP_append, htyp, hword,
        pickWords_length, hmc]
      omega
    · rw [if_neg h2, if_neg h2, List.countP_append, htyp, hmc]
  · rw [if_neg h3]
    have h2 : ¬ (2 ≤ level ∧ 3 ≤ (List.take (level * lettersPerLevel) allLettersData).length) :=
      fun hc => h3 hc.2
    rw [if_neg h2, if_neg h2, htyp]

/-- Every word-spelling question of the pre-shuffle list spells an
upper-cased pick from the filtered candidate list. -/
theorem getLevelDataQuestions_word_mem (rng : LevelRandom) (level : Nat) :
    ∀ q ∈ getLevelDataQuestions rng level, q.type = QType.wordSpelling →
      ∃ w ∈ wordOptionsFor (allLettersData.take (level * lettersPerLevel)),
        q.word = some (jsToUpper w.word) := by
  have htyp : ∀ (s : List LetterData), ∀ q ∈ typingQuestionsOf s,
      q.type ≠ QType.wordSpelling := by
    intro s q hq
    rcases List.mem_map.1 hq with ⟨iq, -, rfl⟩
    simp [mkTypingQuestion]
  have hmatch : ∀ (s : List LetterData) (a b : Nat),
      (matchingQuestionOf s a b).type ≠ QType.wordSpelling := by
    intro s a b
    simp [matchingQuestionOf]
  intro q hq hw
  simp only [getLevelDataQuestions] at hq
  by_cases h2 : 2 ≤ level ∧ 3 ≤ (List.take (level * lettersPerLevel) allLettersData).length
  · rw [if_pos h2] at hq
    rcases List.mem_append.1 hq with hq | hq
    · exfalso
      by_cases h3 : 3 ≤ (List.take (level * lettersPerLevel) allLettersData).length
      · rw [if_pos h3] at hq
        rcases List.mem_append.1 hq with hq | hq
        · exact htyp _ q hq hw
        · rcases List.mem_singleton.1 hq with rfl
          exact hmatch _ _ _ hw
      · rw [if_neg h3] at hq
        exact htyp _ q hq hw
    · unfold wordQuestionsOf at hq
      rcases List.mem_map.1 hq with ⟨iw, hiw, rfl⟩
      refine ⟨iw.2, ?_, rfl⟩
      have hsnd : iw.2 ∈ pickWords rng.wordPick (if 3 ≤ level then 2 else 1) 0
          (wordOptionsFor (allLettersData.take (level * lettersPerLevel))) := by
        rw [← List.enum_map_snd (pickWords rng.wordPick (if 3 ≤ level then 2 else 1) 0
          (wordOptionsFor (allLettersData.take (level * lettersPerLevel))))]
        exact List.mem_map_of_mem Prod.snd hiw
      exact pickWords_subset _ _ _ _ _ hsnd
  · rw [if_neg h2] at hq
    exfalso
    by_cases h3 : 3 ≤ (List.take (level * lettersPerLevel) allLettersData).length
    · rw [if_pos h3] at hq
      rcases List.mem_append.1 hq with hq | hq
      · exact htyp _ q hq hw
      · rcases List.mem_singleton.1 hq with rfl
        exact hmatch _ _ _ hw
    · rw [if_neg h3] at hq
      exact htyp _ q hq hw

/-! ## The claims -/

/-- **C10**: the shuffle helper leaves the list it was given untouched
(the loop mutates only the local copy), and returns a permutation of it —
in particular of the same length. -/
theorem C10_shuffle_perm_input_unchanged (α : Type _) (rand : Nat → Nat)
    (l : List α) :
    (shuffleRun rand l).array = l
    ∧ shuffle rand l ~ l
    ∧ (shuffle rand l).length = l.length :=
  ⟨shuffleLoop_array rand _ _, shuffle_perm rand l, shuffle_length rand l⟩

/-- **C9**: the standalone evaluator (`AICameraEvaluation.tsx`) uses
thresholds 0.70 (pro) and 0.85 (expert); the camera-quiz page (`part_006`)
uses 0.70 for both tiers. -/
theorem C9_thresholds_per_call_site :
    aiCameraThreshold .pro = 7 / 10
    ∧ aiCameraThreshold .expert = 17 / 20
    ∧ cameraQuizThreshold "pro" = 7 / 10
    ∧ cameraQuizThreshold "expert" = 7 / 10 :=
  ⟨rfl, rfl, rfl, rfl⟩

/-- **C2**: a camera check passes exactly when `match == true` and the
confidence is at least the tier threshold; equality with the threshold
passes, and `match == false` never passes, at both call sites. -/
theorem C2_check_pass_iff (m : Bool) (c : ℚ) (tier : String) (ct : CameraTier) :
    (checkPasses m c (cameraQuizThreshold tier) = true
        ↔ m = true ∧ cameraQuizThreshold tier ≤ c)
    ∧ (checkPasses m c (aiCameraThreshold ct) = true
        ↔ m = true ∧ aiCameraThreshold ct ≤ c)
    ∧ checkPasses true (cameraQuizThreshold tier) (cameraQuizThreshold tier) = true
    ∧ checkPasses true (aiCameraThreshold ct) (aiCameraThreshold ct) = true
    ∧ checkPasses false c (cameraQuizThreshold tier) = false
    ∧ checkPasses false c (aiCameraThreshold ct) = false := by
  refine ⟨?_, ?_, ?_, ?_, ?_, ?_⟩ <;> simp [checkPasses]

/-- **C3**: with a signed-in user, a perfect submission on level 5 advances
to the next tier (in the fixed order, `pro` staying `pro`) at level 1, a
perfect submission on a lower level advances one level within the tier, and
a percentage below 100 changes no progress state. -/
theorem C3_perfect_score_progression (t : TierType) (lvl : Nat) (pct : ℤ) :
    (lvl = 5 → submitProgress t lvl 100 true = some (nextTier t, 1))
    ∧ (lvl < 5 → submitProgress t lvl 100 true = some (t, lvl + 1))
    ∧ (∀ hu : Bool, pct < 100 → submitProgress t lvl pct hu = none)
    ∧ nextTier .beginner = .intermediate
    ∧ nextTier .intermediate = .expert
    ∧ nextTier .expert = .pro
    ∧ nextTier .pro = .pro := by
  refine ⟨?_, ?_, ?_, by decide, by decide, by decide, by decide⟩
  · intro h
    subst h
    simp [submitProgress]
  · intro h
    have h5 : lvl ≠ 5 := by omega
    simp [submitProgress, h5]
  · intro hu h
    have : pct ≠ 100 := by omega
    simp [submitProgress, this]

theorem C3_perfect_score_progression_witness :
    submitProgress .beginner 5 100 true = some (.intermediate, 1)
    ∧ submitProgress .beginner 2 100 true = some (.beginner, 3)
    ∧ submitProgress .expert 5 40 true = none :=
  ⟨by
      have h := (C3_perfect_score_progression .beginner 5 0).1 rfl
      have hn : nextTier TierType.beginner = .intermediate :=
        (C3_perfect_score_progression .beginner 5 0).2.2.2.1
      rw [hn] at h
      exact h,
   (C3_perfect_score_progression .beginner 2 0).2.1 (by omega),
   (C3_perfect_score_progression .expert 5 40).2.2.1 true (by omega)⟩

/-- **C1** (counterexample): a camera-quiz session (pro, level 1) that
answers all four questions correctly scores exactly 100, yet its submit
path issues no progress update at all — the camera quiz page only saves the
score, so "progression iff 100%" fails for the camera-quiz variant. -/
theorem C1_counterexample :
    submitPercentage ([true, true, true, true].count true) 4 = 100
    ∧ (cameraQuizFinishRequests .pro 1 [true, true, true, true] 4 true).countP
        isProgressUpdate = 0 := by
  constructor
  · norm_num [submitPercentage, jsRound]
  · rfl

/-- **C1** (amended): for the manual quiz path with a signed-in user, an
`update-progress` request is issued iff the percentage is exactly 100; the
camera-quiz variant never issues one, whatever the results. -/
theorem C1_progress_iff_100_manual_only (t : TierType) (lvl score total : Nat)
    (results : List Bool) (hu : Bool) :
    ((handleSubmitQuizRequests t lvl score total true).countP isProgressUpdate ≠ 0
        ↔ submitPercentage score total = 100)
    ∧ (cameraQuizFinishRequests t lvl results total hu).countP isProgressUpdate = 0 := by
  constructor
  · simp only [handleSubmitQuizRequests, submitProgress, if_true, List.countP_append]
    by_cases h : submitPercentage score total = 100
    · by_cases h5 : lvl = 5 <;> simp [h, h5, isProgressUpdate]
    · simp [h, isProgressUpdate]
  · cases hu <;> simp [cameraQuizFinishRequests, isProgressUpdate]

/-- The score exactly as the spec words it, for comparison with
`calculateScore`: for the matching variant only the recorded answer is
compared with the `"matched"` sentinel (no re-check of the drop zones). -/
def specScore (questions : List Question) (quizAnswers : Nat → Option JSVal)
    (wordSpellingAnswers : Nat → Option String) : Nat :=
  questions.enum.countP fun iq =>
    match iq.2.type with
    | .matching => decide (quizAnswers iq.1 = some (.str "matched"))
    | .trueFalse => decide (quizAnswers iq.1 = some iq.2.correctAnswer)
    | .wordSpelling =>
        decide (jsToUpper ((wordSpellingAnswers iq.1).getD "")
          = jsToUpper (jsStringVal iq.2.correctAnswer))
    | .typing =>
        decide (jsToUpper (jsString (quizAnswers iq.1))
          = jsToUpper (jsStringVal iq.2.correctAnswer))

/-- A matching question as generated at any level (one pair suffices). -/
def mcQuestion : Question :=
  { id := 0
    type := .matching
    question := "Match each letter to its sign"
    pairs := [⟨"A", "/A.png"⟩]
    correctAnswer := .str "matched" }

/-- A reachable answers state: the matching question was once fully matched,
which recorded the `"matched"` sentinel. -/
def mcAnswers : Nat → Option JSVal :=
  fun i => if i = 0 then some (.str "matched") else none

/-- The drop state after the pair for A was subsequently overwritten with a
wrong icon (the sentinel stays, see the drag engine). -/
def mcDropped : String → Option String :=
  fun k => if k = "0-A" then some "/B.png" else none

/-- **C4** (counterexample): in a reachable state where the `"matched"`
sentinel is recorded but a pair's drop zone has been overwritten with a
wrong icon, `calculateScore` re-checks the pairs and scores 0, while the
claimed sentinel-only comparison counts 1. -/
theorem C4_counterexample :
    calculateScore [mcQuestion] mcAnswers mcDropped (fun _ => none) = 0
    ∧ specScore [mcQuestion] mcAnswers (fun _ => none) = 1
    ∧ calculateScore [mcQuestion] mcAnswers mcDropped (fun _ => none)
        ≠ specScore [mcQuestion] mcAnswers (fun _ => none) := by
  refine ⟨?_, ?_, ?_⟩ <;> decide

theorem foldl_count_eq_countP (p : β → Bool) (l : List β) (n : Nat) :
    l.foldl (fun c x => if p x then c + 1 else c) n = n + l.countP p := by
  induction l generalizing n with
  | nil => simp
  | cons x xs ih =>
      cases h : p x
      · simp [List.countP_cons, h, ih]
      · simp [List.countP_cons, h, ih]
        omega

/-- **C4** (amended): the computed score counts exactly the questions whose
recorded answer matches under the variant comparison, where the matching
variant additionally requires every pair's drop zone to still hold its
expected sign; the reported percentage is `round(100 * correct / total)`. -/
theorem C4_score_counts_variant_matches (questions : List Question)
    (quizAnswers : Nat → Option JSVal) (droppedIcons : String → Option String)
    (wordSpellingAnswers : Nat → Option String) :
    (calculateScore questions quizAnswers droppedIcons wordSpellingAnswers
        = questions.enum.countP fun iq =>
            questionCorrect quizAnswers droppedIcons wordSpellingAnswers iq.1 iq.2)
    ∧ (∀ idx q, q.type = .matching →
        (questionCorrect quizAnswers droppedIcons wordSpellingAnswers idx q = true
          ↔ quizAnswers idx = some (.str "matched")
            ∧ ∀ p ∈ q.pairs, droppedIcons (dropKey idx p.letter) = some p.sign))
    ∧ (∀ score total : Nat,
        submitPercentage score total = jsRound (100 * (score : ℚ) / (total : ℚ))) := by
  refine ⟨?_, ?_, ?_⟩
  · rw [calculateScore, foldl_count_eq_countP, Nat.zero_add]
  · intro idx q hq
    rw [questionCorrect, hq]
    by_cases hs : quizAnswers idx = some (.str "matched")
    · simp [hs, List.all_eq_true]
    · simp [hs]
  · intro score total
    rw [submitPercentage]
    ring_nf

theorem C4_score_counts_variant_matches_witness :
    questionCorrect mcAnswers (fun _ => none) (fun _ => none) 0 mcQuestion = false
    ∧ (mcAnswers 0 = some (.str "matched")
        ∧ ∀ p ∈ mcQuestion.pairs, (fun _ => none : String → Option String)
            (dropKey 0 p.letter) = some p.sign) = False := by
  constructor
  · have h := ((C4_score_counts_variant_matches [mcQuestion] mcAnswers
      (fun _ => none) (fun _ => none)).2.1 0 mcQuestion rfl)
    have : ¬ (mcAnswers 0 = some (.str "matched")
        ∧ ∀ p ∈ mcQuestion.pairs, (fun _ => none : String → Option String)
            (dropKey 0 p.letter) = some p.sign) := by
      rintro ⟨-, hall⟩
      have := hall ⟨"A", "/A.png"⟩ (by decide)
      simp at this
    cases hcq : questionCorrect mcAnswers (fun _ => none) (fun _ => none) 0 mcQuestion
    · rfl
    · exact absurd (h.1 hcq) this
  · simp only [eq_iff_iff, iff_false]
    rintro ⟨-, hall⟩
    have := hall ⟨"A", "/A.png"⟩ (by decide)
    simp at this

/-- A two-pair matching question, as generated at any level with at least
two cumulative letters in the pair draw. -/
def q8Question : Question :=
  { id := 0
    type := .matching
    question := "Match each letter to its sign"
    pairs := [⟨"A", "/A.png"⟩, ⟨"B", "/B.png"⟩]
    correctAnswer := .str "matched" }

/-- The quiz state on entering the quiz: no answers, no drops. -/
def dragInit : DragState :=
  { quizAnswers := fun _ => none, droppedIcons := fun _ => none }

/-- **C8** (counterexample): drop both pairs correctly (the answer becomes
`"matched"`), then overwrite the B zone with a wrong icon.  The recorded
answer stays `"matched"` although the pairs are no longer all correct, so
the claimed at-every-point equivalence (and the claimed un-marking on a
wrong drop) fails. -/
theorem C8_counterexample :
    (runDrops [q8Question] 0 dragInit
        [("A", "/A.png"), ("B", "/B.png"), ("B", "/C.png")]).quizAnswers 0
      = some (.str "matched")
    ∧ allPairsMatched q8Question 0
        (runDrops [q8Question] 0 dragInit
          [("A", "/A.png"), ("B", "/B.png"), ("B", "/C.png")]).droppedIcons
      = false := by
  refine ⟨?_, ?_⟩ <;> decide

/-- **C8** (amended): on every drop on the current matching question, the
engine records the drop and re-checks all pairs; the answer reads
`"matched"` afterwards iff all pairs are simultaneously correct after this
drop, or the question was already marked — a wrong drop on a marked
question leaves it marked (the sentinel is never cleared; scoring re-checks
the pairs instead). -/
theorem C8_drop_marks_iff (questions : List Question) (cidx : Nat) (q : Question)
    (st : DragState) (letter icon : String) (hq : questions[cidx]? = some q)
    (hm : q.type = .matching) (hicon : icon ≠ "") :
    ((handleDrop questions cidx st cidx letter icon).quizAnswers cidx
        = some (.str "matched")
      ↔ (allPairsMatched q cidx (fun k =>
            if k = dropKey cidx letter then some icon else st.droppedIcons k) = true
          ∨ st.quizAnswers cidx = some (.str "matched")))
    ∧ (handleDrop questions cidx st cidx letter icon).droppedIcons
        = fun k => if k = dropKey cidx letter then some icon else st.droppedIcons k := by
  have h0 : ¬ icon = "" := hicon
  cases hall : allPairsMatched q cidx (fun k =>
      if k = dropKey cidx letter then some icon else st.droppedIcons k) <;>
    simp [handleDrop, h0, hq, hm, hall]

theorem C8_drop_marks_iff_witness :
    ((handleDrop [q8Question] 0 dragInit 0 "A" "/A.png").quizAnswers 0
        = some (.str "matched")
      ↔ (allPairsMatched q8Question 0 (fun k =>
            if k = dropKey 0 "A" then some "/A.png" else dragInit.droppedIcons k) = true
          ∨ dragInit.quizAnswers 0 = some (.str "matched")))
    ∧ (handleDrop [q8Question] 0 dragInit 0 "A" "/A.png").droppedIcons
        = fun k => if k = dropKey 0 "A" then some "/A.png" else dragInit.droppedIcons k :=
  C8_drop_marks_iff [q8Question] 0 q8Question dragInit "A" "/A.png" rfl rfl (by decide)

/-- **C7**: every target of a camera-quiz session lies in the restricted
classifier-supported subset `allLetters = {A,B,C,D,H,L,V,Y,W}`, and the
session's question sequence is a permutation of the cumulative slice of the
first `min(4·levelNumber, 9)` letters of that subset. -/
theorem C7_camera_targets_supported (rand : Nat → Nat) (levelNumber : Nat) :
    (∀ q ∈ cameraQuestions rand levelNumber, q ∈ allLetters)
    ∧ cameraQuestions rand levelNumber
        ~ allLetters.take (min (4 * levelNumber) 9) := by
  have hperm := shuffle_perm rand (allLetters.take (levelNumber * lettersPerLevel))
  constructor
  · intro q hq
    exact List.take_subset _ _ (hperm.mem_iff.1 hq)
  · have hmul : levelNumber * lettersPerLevel = 4 * levelNumber := by
      rw [lettersPerLevel, Nat.mul_comm]
    unfold cameraQuestions
    rw [hmul] at hperm ⊢
    by_cases h : 4 * levelNumber ≤ 9
    · rw [min_eq_left h]
      exact hperm
    · rw [min_eq_right (by omega)]
      have h9 : allLetters.length ≤ 4 * levelNumber := by
        rw [show allLetters.length = 9 from rfl]; omega
      rw [List.take_of_length_le h9] at hperm ⊢
      rw [List.take_of_length_le (show allLetters.length ≤ 9 by decide)]
      exact hperm

theorem C7_camera_targets_supported_witness :
    "B" ∈ allLetters
    ∧ cameraQuestions (fun _ => 0) 1 ~ allLetters.take (min (4 * 1) 9) :=
  ⟨(C7_camera_targets_supported (fun _ => 0) 1).1 "B" (by decide),
   (C7_camera_targets_supported (fun _ => 0) 1).2⟩

/-- A concrete random stream (every draw picks index 0), used to witness
the generator claims. -/
def zeroRandom : LevelRandom :=
  ⟨fun _ => 0, fun _ => 0, fun _ => 0, fun _ => 0⟩

/-- **C5**: whenever `4·level ≤ 23`, the generated quiz contains exactly
`4·level` typing questions, and their correct answers are exactly the
cumulative letter slice (one question per cumulative letter). -/
theorem C5_typing_question_count (rng : LevelRandom) (level : Nat)
    (h1 : 1 ≤ level) (h23 : 4 * level ≤ 23) :
    ((getLevelData rng level).2.countP (fun q => decide (q.type = QType.typing))
        = 4 * level)
    ∧ ((getLevelData rng level).2.filter (fun q => decide (q.type = QType.typing))).map
          (fun q => q.correctAnswer)
        ~ (allLettersData.take (4 * level)).map (fun ld => JSVal.str ld.letter) := by
  have hperm : (getLevelData rng level).2 ~ getLevelDataQuestions rng level :=
    shuffle_perm _ _
  have hmull : level * lettersPerLevel = 4 * level := by
    rw [show lettersPerLevel = 4 from rfl, Nat.mul_comm]
  have hfe := getLevelDataQuestions_filter_typing rng level
  constructor
  · rw [hperm.countP_eq, List.countP_eq_length_filter, hfe]
    unfold typingQuestionsOf
    rw [List.length_map, List.enum_length, shuffle_length, List.length_take, hmull]
    rw [show allLettersData.length = 23 from rfl]
    omega
  · have step1 : ((getLevelData rng level).2.filter
          (fun q => decide (q.type = QType.typing)))
        ~ typingQuestionsOf (shuffle rng.typingShuffle
            (allLettersData.take (level * lettersPerLevel))) := by
      have h := hperm.filter (fun q => decide (q.type = QType.typing))
      rw [hfe] at h
      exact h
    have step2 : (typingQuestionsOf (shuffle rng.typingShuffle
          (allLettersData.take (level * lettersPerLevel)))).map
            (fun q => q.correctAnswer)
        = (shuffle rng.typingShuffle (allLettersData.take (level * lettersPerLevel))).map
            (fun ld => JSVal.str ld.letter) := by
      unfold typingQuestionsOf
      rw [List.map_map]
      have hfun : ((fun q => q.correctAnswer) ∘ fun iq : Nat × LetterData =>
          mkTypingQuestion iq.1 iq.2) = (fun ld => JSVal.str ld.letter) ∘ Prod.snd := by
        funext iq
        simp [mkTypingQuestion]
      rw [hfun, ← List.map_map, List.enum_map_snd]
    have step3 : (shuffle rng.typingShuffle
          (allLettersData.take (level * lettersPerLevel))).map
            (fun ld => JSVal.str ld.letter)
        ~ (allLettersData.take (4 * level)).map (fun ld => JSVal.str ld.letter) := by
      rw [hmull]
      exact (shuffle_perm _ _).map _
    calc ((getLevelData rng level).2.filter
            (fun q => decide (q.type = QType.typing))).map (fun q => q.correctAnswer)
        ~ (typingQuestionsOf (shuffle rng.typingShuffle
            (allLettersData.take (level * lettersPerLevel)))).map
              (fun q => q.correctAnswer) := step1.map _
      _ = (shuffle rng.typingShuffle (allLettersData.take (level * lettersPerLevel))).map
            (fun ld => JSVal.str ld.letter) := step2
      _ ~ (allLettersData.take (4 * level)).map (fun ld => JSVal.str ld.letter) := step3

theorem C5_typing_question_count_witness :
    (1 ≤ 1 ∧ 4 * 1 ≤ 23)
    ∧ (getLevelData zeroRandom 1).2.countP (fun q => decide (q.type = QType.typing))
        = 4 * 1 :=
  ⟨by decide, (C5_typing_question_count zeroRandom 1 (by decide) (by decide)).1⟩

/-- Each built-in word candidate is already upper case, and its declared
letter list is exactly its character sequence. -/
theorem allWordOptions_letters_spell_word :
    ∀ w ∈ allWordOptions,
      jsToUpper w.word = w.word
      ∧ w.word.toList.map String.singleton = w.letters := by
  decide

/-- **C6**: word-spelling questions appear only for `level ≥ 2` — one when
`level < 3`, two when `level ≥ 3`, fewer exactly when the filtered candidate
list is exhausted (the count is the minimum of the two) — and every letter
of every selected target word belongs to the cumulative letter set. -/
theorem C6_word_spelling_questions (rng : LevelRandom) (level : Nat) :
    (level < 2 →
      (getLevelData rng level).2.countP
        (fun q => decide (q.type = QType.wordSpelling)) = 0)
    ∧ (2 ≤ level →
      (getLevelData rng level).2.countP
          (fun q => decide (q.type = QType.wordSpelling))
        = min (if 3 ≤ level then 2 else 1)
            (wordOptionsFor (allLettersData.take (level * lettersPerLevel))).length)
    ∧ (∀ q ∈ (getLevelData rng level).2, q.type = QType.wordSpelling →
        ∀ c ∈ (q.word.getD "").toList,
          String.singleton c
            ∈ (allLettersData.take (level * lettersPerLevel)).map
                (fun ld => ld.letter)) := by
  have hperm : (getLevelData rng level).2 ~ getLevelDataQuestions rng level :=
    shuffle_perm _ _
  have hcount := getLevelDataQuestions_countP_word rng level
  refine ⟨?_, ?_, ?_⟩
  · intro hlt
    rw [hperm.countP_eq, hcount, if_neg]
    rintro ⟨h2, -⟩
    omega
  · intro h2
    have hlen : 3 ≤ (allLettersData.take (level * lettersPerLevel)).length := by
      rw [List.length_take, show allLettersData.length = 23 from rfl,
        show lettersPerLevel = 4 from rfl]
      omega
    rw [hperm.countP_eq, hcount, if_pos ⟨h2, hlen⟩]
  · intro q hq hw c hc
    have hq' : q ∈ getLevelDataQuestions rng level := hperm.mem_iff.1 hq
    rcases getLevelDataQuestions_word_mem rng level q hq' hw with ⟨w, hwmem, hword⟩
    rcases List.mem_filter.1 hwmem with ⟨hwall, hpred⟩
    rcases allWordOptions_letters_spell_word w hwall with ⟨hupper, hletters⟩
    rw [hword, Option.getD_some, hupper] at hc
    have hsing : String.singleton c ∈ w.letters := by
      rw [← hletters]
      exact List.mem_map_of_mem String.singleton hc
    have hcontains := List.all_eq_true.1 hpred _ hsing
    simpa using hcontains

theorem C6_word_spelling_questions_witness :
    (1 < 2 → (getLevelData zeroRandom 1).2.countP
        (fun q => decide (q.type = QType.wordSpelling)) = 0)
    ∧ 2 ≤ 3
    ∧ (getLevelData zeroRandom 3).2.countP
        (fun q => decide (q.type = QType.wordSpelling))
      = min 2 (wordOptionsFor (allLettersData.take (3 * lettersPerLevel))).length :=
  ⟨(C6_word_spelling_questions zeroRandom 1).1,
   by decide,
   by
    have h := (C6_word_spelling_questions zeroRandom 3).2.1 (by decide)
    simpa using h⟩

end HTB
